import Mathlib

/-!
Verification of the asana-todo-updater core logic (src/main.py): field
normalization, the urgency scoring formula, and the deterministic section
ordering, shallowly embedded in Lean.
-/

namespace AsanaTodo

/-- A calendar date (proleptic Gregorian), as Python `datetime.date`:
year, month, day, no time component. -/
structure Date where
  year : Int
  month : Nat
  day : Nat
  deriving DecidableEq, Repr

/-- Day number of a date, counted from 1970-01-01 (day 0), by the standard
civil-from-days algorithm.  Used to model `numpy.busday_count`. -/
def Date.toDayNumber (d : Date) : Int :=
  let y : Int := if d.month ≤ 2 then d.year - 1 else d.year
  let m : Int := (d.month : Int)
  let era : Int := Int.fdiv y 400
  let yoe : Int := y - era * 400
  let mp : Int := Int.emod (m + 9) 12
  let doy : Int := (153 * mp + 2) / 5 + (d.day : Int) - 1
  let doe : Int := yoe * 365 + yoe / 4 - yoe / 100 + doy
  era * 146097 + doe - 719468

/-- Weekday of a day number: 0 = Monday, …, 6 = Sunday
(day 0 = 1970-01-01 was a Thursday = 3). -/
def weekdayNum (z : Int) : Int := Int.emod (z + 3) 7

/-- A business day is a weekday Monday–Friday (no holiday calendar). -/
def isBusday (z : Int) : Bool := weekdayNum z ≤ 4

/-- Number of business days among the `len` consecutive day numbers starting at `start`. -/
def countBusdays (start : Int) (len : Nat) : Int :=
  (((List.range len).filter (fun i => isBusday (start + (i : Int)))).length : Int)

/-- Model of `numpy.busday_count begin end`: business days in the half-open
range `[begin, end)`; negative (by symmetry) when `end` is before `begin`. -/
def busday_count (b e : Date) : Int :=
  let nb := b.toDayNumber
  let ne := e.toDayNumber
  if nb ≤ ne then countBusdays nb (ne - nb).toNat
  else - countBusdays ne (nb - ne).toNat

/-- The due-date multiplier ladder of `compute_urgency`
(src/main.py lines 241-259), first match wins, default ×1. -/
def dueMultiplier (remaining_days : Int) : ℚ :=
  if remaining_days < 0 then 5
  else if remaining_days = 0 then 3
  else if remaining_days = 1 then 2
  else if remaining_days = 2 then 3 / 2
  else if remaining_days = 3 then 6 / 5
  else if remaining_days = 4 then 11 / 10
  else if remaining_days ≥ 10 then 4 / 5
  else if remaining_days = 20 then 1 / 2
  else 1

/-- The open-date bonus of `compute_urgency` (src/main.py lines 261-267):
`open_weeks = open_days // 5` (Python floor division = `Int.fdiv`), then
`open_weeks * 0.5` when `0 < open_weeks < 10`, else `open_weeks * 0.1`. -/
def openBonus (open_days : Int) : ℚ :=
  let open_weeks : Int := Int.fdiv open_days 5
  if 0 < open_weeks ∧ open_weeks < 10 then (open_weeks : ℚ) * (1 / 2)
  else (open_weeks : ℚ) * (1 / 10)

/-- Shallow embedding of `compute_urgency` (src/main.py lines 225-269).
`today` is passed explicitly (the source reads `datetime.date.today()`);
scores are modelled as rationals.  The Python `match` on `impact` has cases
for the four labels and for `None` (which returns 0 at once); any other
string matches no case, so `urgency` stays 0 but the function continues. -/
def compute_urgency (due_on : Option Date) (open_date : Option Date)
    (impact : Option String) (today : Date) : ℚ :=
  match impact with
  | none => 0
  | some s =>
    let base : ℚ :=
      if s = "Very High" then 20
      else if s = "High" then 10
      else if s = "Medium" then 2
      else if s = "Low" then 1
      else 0
    let afterDue : ℚ :=
      match due_on with
      | none => base
      | some due => base * dueMultiplier (busday_count today due)
    match open_date with
    | none => afterDue
    | some od => afterDue + openBonus (busday_count od today)

/-- A loosely-typed Python value, as found in the JSON-ish task records the
Asana client returns: `None`, booleans, numbers, strings, dicts with string
keys, and lists. -/
inductive Val where
  | vnull
  | vbool (b : Bool)
  | vnum (q : ℚ)
  | vstr (s : String)
  | vobj (entries : List (String × Val))
  | vlist (items : List Val)

/-- The Python exceptions the parse helpers can meet. -/
inductive PyErr where
  | typeError
  | keyError
  | valueError
  deriving DecidableEq, Repr

/-- Python subscript `v[key]` with a string key: `KeyError` when a dict lacks
the key, `TypeError` when the subscripted value is not a dict. -/
def getItem (v : Val) (key : String) : Except PyErr Val :=
  match v with
  | .vobj entries =>
    match entries.lookup key with
    | some x => .ok x
    | none => .error .keyError
  | _ => .error .typeError

/-- Numeric value of a decimal digit character. -/
def digitVal (c : Char) : Option Nat :=
  if c.isDigit then some (c.toNat - 48) else none

/-- Gregorian leap-year rule. -/
def isLeapYear (y : Int) : Bool :=
  (Int.emod y 4 == 0 && !(Int.emod y 100 == 0)) || Int.emod y 400 == 0

/-- Number of days in a month of the proleptic Gregorian calendar. -/
def daysInMonth (y : Int) (m : Nat) : Nat :=
  if m = 2 then (if isLeapYear y then 29 else 28)
  else if m = 4 ∨ m = 6 ∨ m = 9 ∨ m = 11 then 30
  else 31

/-- Model of `datetime.date.fromisoformat` on the `YYYY-MM-DD` calendar-date
format: ten characters, digits and dashes, with a valid month, day and a
positive year; any other string is invalid (Python raises `ValueError`). -/
def fromisoformat (s : String) : Option Date :=
  match s.toList with
  | [y1, y2, y3, y4, h1, m1, m2, h2, d1, d2] =>
    if h1 = '-' ∧ h2 = '-' then
      match digitVal y1, digitVal y2, digitVal y3, digitVal y4,
            digitVal m1, digitVal m2, digitVal d1, digitVal d2 with
      | some a, some b, some c, some d, some e, some f, some g, some h =>
        let year : Int := ((a * 1000 + b * 100 + c * 10 + d : Nat) : Int)
        let month : Nat := e * 10 + f
        let day : Nat := g * 10 + h
        if 1 ≤ year ∧ 1 ≤ month ∧ month ≤ 12 ∧ 1 ≤ day ∧ day ≤ daysInMonth year month then
          some ⟨year, month, day⟩
        else none
      | _, _, _, _, _, _, _, _ => none
    else none
  | _ => none

/-- Embedding of `parse_date` (src/main.py lines 214-222): `None` maps to
`None`; a string is parsed, with `ValueError` caught (returning `None`); a
value of any other type makes `fromisoformat` raise `TypeError`, which the
source does not catch. -/
def parse_date (datestr : Val) : Except PyErr (Option Date) :=
  match datestr with
  | .vnull => .ok none
  | .vstr s =>
    match fromisoformat s with
    | some d => .ok (some d)
    | none => .ok none
  | _ => .error .typeError

/-- Python truthiness `bool(v)` on a `Val`. -/
def truthy : Val → Bool
  | .vnull => false
  | .vbool b => b
  | .vnum q => if q = 0 then false else true
  | .vstr s => if s = "" then false else true
  | .vobj [] => false
  | .vobj (_ :: _) => true
  | .vlist [] => false
  | .vlist (_ :: _) => true

/-- Embedding of `parse_enum_custom_field` (src/main.py lines 158-165):
`fields[field_gid]['enum_value']['name']` with `TypeError` and `KeyError`
both caught and collapsed to `None`. -/
def parse_enum_custom_field (fields : Val) (field_gid : String) : Except PyErr (Option Val) :=
  match (do
    let f ← getItem fields field_gid
    let ev ← getItem f "enum_value"
    getItem ev "name") with
  | .ok v => .ok (some v)
  | .error .typeError => .ok none
  | .error .keyError => .ok none
  | .error e => .error e

/-- Embedding of `parse_date_custom_field` (src/main.py lines 168-178):
the lookup `fields[field_gid]['date_value']['date']` has `TypeError` and
`KeyError` caught (yielding `None`); the extracted value then goes through
`parse_date`, whose exceptions are not caught here. -/
def parse_date_custom_field (fields : Val) (field_gid : String) : Except PyErr (Option Date) :=
  match (do
    let f ← getItem fields field_gid
    let dv ← getItem f "date_value"
    getItem dv "date") with
  | .ok v => parse_date v
  | .error .typeError => .ok none
  | .error .keyError => .ok none
  | .error e => .error e

/-- Embedding of `parse_bool_field` (src/main.py lines 181-192): the lookup
catches only `KeyError` (returning `False`); the `bool()` coercion catches
`ValueError`, which truthiness never raises. -/
def parse_bool_field (fields : Val) (field_name : String) : Except PyErr Bool :=
  match getItem fields field_name with
  | .error .keyError => .ok false
  | .error e => .error e
  | .ok v => .ok (truthy v)

/-- Embedding of `parse_number_field` (src/main.py lines 195-200):
`fields[field_gid]['number_value']` with only `KeyError` caught; a
`TypeError` from subscripting a non-dict propagates. -/
def parse_number_field (fields : Val) (field_gid : String) : Except PyErr (Option Val) :=
  match (do
    let f ← getItem fields field_gid
    getItem f "number_value") with
  | .ok v => .ok (some v)
  | .error .keyError => .ok none
  | .error e => .error e

/-- Embedding of `parse_date_field` (src/main.py lines 203-211): the lookup
catches only `KeyError` (returning `None`); the value then goes through
`parse_date`, whose `TypeError` on non-string non-null values propagates. -/
def parse_date_field (fields : Val) (field_name : String) : Except PyErr (Option Date) :=
  match getItem fields field_name with
  | .error .keyError => .ok none
  | .error e => .error e
  | .ok v => parse_date v

/-- The extracted per-task view that `_assign_urgency` computes before its
skip rules (src/main.py lines 125-130): name, completion flag, due date,
open date, impact label and size label. -/
structure UTask where
  gid : String
  name : String
  completed : Bool
  due_on : Option Date
  open_date : Option Date
  impact : Option String
  size : Option String

/-- An attempted `update_task` write: task gid, custom-field gid, new value. -/
structure Directive where
  taskGid : String
  fieldGid : String
  value : ℚ
  deriving DecidableEq, Repr

/-- The per-task loop of `_assign_urgency` (src/main.py lines 115-155) over
the extracted view of each task: completed tasks and tasks whose size label
is the literal "Holder" are skipped; otherwise one write of the computed
urgency is attempted.  `fails` says which task writes raise; the exception is
caught and logged and the loop continues to the next task.  Returns the
attempted directives together with the log of tasks whose write failed. -/
def assign_urgency (urgencyFieldGid : String) (today : Date)
    (fails : String → Bool) : List UTask → List Directive × List String
  | [] => ([], [])
  | t :: ts =>
    let rest := assign_urgency urgencyFieldGid today fails ts
    if t.completed then rest
    else if t.size = some "Holder" then rest
    else
      let u := compute_urgency t.due_on t.open_date t.impact today
      (⟨t.gid, urgencyFieldGid, u⟩ :: rest.1,
        if fails t.gid then t.name :: rest.2 else rest.2)

/-- An element of the `toSort` list built by `order` (src/main.py lines
43-54): task name, gid, and the parsed numeric order key (null when the
order custom field is unset). -/
structure OTask where
  name : String
  gid : String
  order : Option ℚ
  deriving DecidableEq, Repr

/-- The sort key of `order` (line 55): the Python tuple
`(x.order is None, x.order)` compared ascending, so null keys sort after all
numeric keys, numeric keys compare by value, and two null keys compare
equal (a stable sort keeps their original relative order). -/
def orderLE (a b : OTask) : Bool :=
  match a.order, b.order with
  | none, none => true
  | none, some _ => false
  | some _, none => true
  | some x, some y => decide (x ≤ y)

/-- The `didSort` list of `order` (line 55): a stable sort of `toSort` by
`orderLE`, modelling Python's stable `sorted`. -/
def didSort (toSort : List OTask) : List OTask :=
  List.mergeSort toSort orderLE

/-- The write loop of `order` (src/main.py lines 57-77): the counter starts
at 0 and advances by 10 for every visited task; a task with a non-null key
gets one attempted write of the counter value, a null-key task is only
logged.  A raising write is caught and the function returns at once, so
nothing after the failing task is attempted.  `fails` says which task writes
raise.  Returns the attempted directives. -/
def orderLoop (orderFieldGid : String) (fails : String → Bool)
    (ord : ℚ) : List OTask → List Directive
  | [] => []
  | t :: ts =>
    let ord1 := ord + 10
    match t.order with
    | some _ =>
      if fails t.gid then [⟨t.gid, orderFieldGid, ord1⟩]
      else ⟨t.gid, orderFieldGid, ord1⟩ :: orderLoop orderFieldGid fails ord1 ts
    | none => orderLoop orderFieldGid fails ord1 ts

/-- The ordering pipeline of `order` after the fetch (lines 41-77): build the
sorted list and run the write loop from counter 0. -/
def orderPipeline (orderFieldGid : String) (fails : String → Bool)
    (tasks : List OTask) : List Directive :=
  orderLoop orderFieldGid fails 0 (didSort tasks)

/-- Truncate a directive list at the first directive whose task write fails:
that directive is still attempted, nothing after it is. -/
def stopAtFail (fails : String → Bool) : List Directive → List Directive
  | [] => []
  | d :: ds => if fails d.taskGid then [d] else d :: stopAtFail fails ds

/-! ## Helper lemmas -/

theorem dueMultiplier_pos (d : Int) : 0 < dueMultiplier d := by
  unfold dueMultiplier
  split_ifs <;> norm_num

theorem openBonus_nonneg (d : Int) (hd : 0 ≤ d) : 0 ≤ openBonus d := by
  unfold openBonus
  have hw : (0 : Int) ≤ Int.fdiv d 5 := Int.fdiv_nonneg hd (by norm_num)
  have hwq : (0 : ℚ) ≤ ((Int.fdiv d 5 : Int) : ℚ) := by exact_mod_cast hw
  dsimp only
  split_ifs <;> exact mul_nonneg hwq (by norm_num)

/-! ## Claims about the urgency scoring formula -/

/-- C4: the ×0.5 band for a business-day distance of exactly 20 in the
due-date multiplier ladder of `compute_urgency` is dead code: the `≥ 10`
band is evaluated first and already matches 20, so no signed distance ever
selects the 0.5 multiplier, and a distance of exactly 20 gets ×0.8. -/
theorem C4_dead_half_multiplier :
    (∀ d : Int, dueMultiplier d ≠ 1 / 2) ∧ dueMultiplier 20 = 4 / 5 := by
  constructor
  · intro d
    unfold dueMultiplier
    split_ifs with h1 h2 h3 h4 h5 h6 h7 h8
    all_goals try norm_num
    exact absurd h8 (by omega)
  · norm_num [dueMultiplier]

/-- C1 as stated is false: with the unrecognized impact label "Bogus", a
null due date, and an open date five business days before today,
`compute_urgency` returns 1/2, not 0 — the Python `match` has no catch-all
case, so an unrecognized non-null label does not return early and the
open-date bonus is still added. -/
theorem C1_counterexample :
    compute_urgency none (some ⟨2026, 10, 5⟩) (some "Bogus") ⟨2026, 10, 12⟩ ≠ 0 := by
  have h1 : busday_count ⟨2026, 10, 5⟩ ⟨2026, 10, 12⟩ = 5 := by decide
  simp [compute_urgency, h1, openBonus, (by decide : Int.fdiv 5 5 = 1)]

/-- C1 amended: only a null impact short-circuits `compute_urgency` to 0
regardless of dates.  For a non-null impact outside
{"Very High", "High", "Medium", "Low"} the base is 0, so the due-date
multiplier step contributes nothing, but the open-date bonus step still
runs: the result is exactly the open-date bonus (0 when the open date is
null), which need not be 0. -/
theorem C1_amended (due od : Option Date) (today : Date) (s : String)
    (hs : s ≠ "Very High" ∧ s ≠ "High" ∧ s ≠ "Medium" ∧ s ≠ "Low") :
    compute_urgency due od none today = 0 ∧
    compute_urgency due od (some s) today =
      (match od with
       | none => 0
       | some o => openBonus (busday_count o today)) := by
  obtain ⟨h1, h2, h3, h4⟩ := hs
  refine ⟨rfl, ?_⟩
  unfold compute_urgency
  simp only [if_neg h1, if_neg h2, if_neg h3, if_neg h4]
  cases due <;> cases od <;> simp

/-- Witness for `C1_amended` at a concrete unrecognized label and dates. -/
theorem C1_amended_witness :
    compute_urgency none (some ⟨2026, 10, 5⟩) none ⟨2026, 10, 12⟩ = 0 ∧
    compute_urgency none (some ⟨2026, 10, 5⟩) (some "Bogus") ⟨2026, 10, 12⟩ =
      openBonus (busday_count ⟨2026, 10, 5⟩ ⟨2026, 10, 12⟩) :=
  C1_amended none (some ⟨2026, 10, 5⟩) ⟨2026, 10, 12⟩ "Bogus"
    (by refine ⟨?_, ?_, ?_, ?_⟩ <;> decide)

/-- C2 as stated is false: an open date 55 business days in the future gives
-55 business days elapsed, hence -11 elapsed weeks, and the bonus branch
adds -11 × 0.1 to the "Low" base 1, yielding the negative score -1/10 —
the formula has no floor. -/
theorem C2_counterexample :
    compute_urgency none (some ⟨2026, 12, 28⟩) (some "Low") ⟨2026, 10, 12⟩ < 0 := by
  have h1 : busday_count ⟨2026, 12, 28⟩ ⟨2026, 10, 12⟩ = -55 := by decide
  simp [compute_urgency, h1, openBonus, (by decide : Int.fdiv (-55) 5 = -11)]
  norm_num

/-- C2 amended: the urgency score is non-negative whenever the open date is
null or does not lie in the future of today (the business-day count from it
to today is non-negative); a future open date can drive the score below
zero (`C2_counterexample`). -/
theorem C2_amended (due od : Option Date) (impact : Option String) (today : Date)
    (h : ∀ o, od = some o → 0 ≤ busday_count o today) :
    0 ≤ compute_urgency due od impact today := by
  unfold compute_urgency
  cases impact with
  | none => exact le_refl 0
  | some s =>
    have hbase : (0 : ℚ) ≤
        (if s = "Very High" then 20
         else if s = "High" then 10
         else if s = "Medium" then 2
         else if s = "Low" then 1 else 0) := by
      split_ifs <;> norm_num
    have hdue : (0 : ℚ) ≤
        (match due with
         | none =>
           (if s = "Very High" then (20 : ℚ)
            else if s = "High" then 10
            else if s = "Medium" then 2
            else if s = "Low" then 1 else 0)
         | some d =>
           (if s = "Very High" then (20 : ℚ)
            else if s = "High" then 10
            else if s = "Medium" then 2
            else if s = "Low" then 1 else 0) * dueMultiplier (busday_count today d)) := by
      cases due with
      | none => exact hbase
      | some d => exact mul_nonneg hbase (le_of_lt (dueMultiplier_pos _))
    cases od with
    | none => exact hdue
    | some o => exact add_nonneg hdue (openBonus_nonneg _ (h o rfl))

/-- Witness for `C2_amended` with a concrete past open date. -/
theorem C2_amended_witness :
    0 ≤ compute_urgency none (some ⟨2026, 10, 5⟩) (some "Low") ⟨2026, 10, 12⟩ := by
  apply C2_amended
  intro o ho
  injection ho with ho2
  rw [← ho2]
  decide

/-- C8: the open-date bonus divides the elapsed business-day count by 5 with
floor semantics (`Int.fdiv`, which agrees with the rational floor and
truncates toward negative infinity), adds weeks × 0.5 when the week count is
between 1 and 9 inclusive and weeks × 0.1 otherwise (zero, ≥ 10, or
negative weeks), and an open date exactly 3 business weeks (15 business
days) before today with impact "Medium" and no due date scores exactly
2 + 3 × 0.5 = 7/2. -/
theorem C8_open_bonus :
    (∀ d : Int, Int.fdiv d 5 = ⌊(d : ℚ) / 5⌋) ∧
    (∀ d : Int, openBonus d =
      (if 1 ≤ Int.fdiv d 5 ∧ Int.fdiv d 5 ≤ 9
       then ((Int.fdiv d 5 : Int) : ℚ) * (1 / 2)
       else ((Int.fdiv d 5 : Int) : ℚ) * (1 / 10))) ∧
    busday_count ⟨2026, 9, 21⟩ ⟨2026, 10, 12⟩ = 15 ∧
    compute_urgency none (some ⟨2026, 9, 21⟩) (some "Medium") ⟨2026, 10, 12⟩ = 7 / 2 := by
  refine ⟨?_, ?_, by decide, ?_⟩
  · intro d
    have h := Rat.floor_intCast_div_natCast d 5
    push_cast at h
    rw [Int.fdiv_eq_ediv _ (by norm_num)]
    exact h.symm
  · intro d
    unfold openBonus
    exact if_congr (by omega) rfl rfl
  · have h1 : busday_count ⟨2026, 9, 21⟩ ⟨2026, 10, 12⟩ = 15 := by decide
    simp [compute_urgency, h1, openBonus, (by decide : Int.fdiv 15 5 = 3)]
    norm_num

/-! ## Claims about the field extraction layer -/

theorem except_bind_ok {α β : Type} {e : Except PyErr α} {f : α → Except PyErr β} {x : α}
    (h : e = Except.ok x) : (e >>= f) = f x := by
  rw [h]
  rfl

theorem except_bind_error {α β : Type} {e : Except PyErr α} {f : α → Except PyErr β}
    {err : PyErr} (h : e = Except.error err) : (e >>= f) = Except.error err := by
  rw [h]
  rfl

theorem getItem_cases (v : Val) (k : String) :
    (∃ x, getItem v k = Except.ok x) ∨ getItem v k = Except.error PyErr.typeError ∨
      getItem v k = Except.error PyErr.keyError := by
  cases v with
  | vobj entries =>
    cases h : entries.lookup k with
    | some x => exact Or.inl ⟨x, by simp [getItem, h]⟩
    | none => exact Or.inr (Or.inr (by simp [getItem, h]))
  | vnull => exact Or.inr (Or.inl rfl)
  | vbool b => exact Or.inr (Or.inl rfl)
  | vnum q => exact Or.inr (Or.inl rfl)
  | vstr s => exact Or.inr (Or.inl rfl)
  | vlist items => exact Or.inr (Or.inl rfl)

theorem parse_date_cases (v : Val) :
    (∃ r, parse_date v = Except.ok r) ∨ parse_date v = Except.error PyErr.typeError := by
  cases v with
  | vnull => exact Or.inl ⟨none, rfl⟩
  | vstr s =>
    cases h : fromisoformat s with
    | some d => exact Or.inl ⟨some d, by simp [parse_date, h]⟩
    | none => exact Or.inl ⟨none, by simp [parse_date, h]⟩
  | vbool b => exact Or.inr rfl
  | vnum q => exact Or.inr rfl
  | vobj entries => exact Or.inr rfl
  | vlist items => exact Or.inr rfl

/-- C3 as stated is false: `parse_number_field` catches only `KeyError`, so
on a record whose entry for the field is not a dict (here: null) the
subscript `fields[field_gid]['number_value']` raises `TypeError`, which
propagates out of the operation instead of collapsing to the null result. -/
theorem C3_counterexample :
    parse_number_field (.vobj [("field1", .vnull)]) "field1" =
      Except.error PyErr.typeError := rfl

/-- C3 amended: extractEnumLabel is total over arbitrary values, and
extractBoolean is total over arbitrary dict records, collapsing malformed
data to null/false.  The other three are total except for an escaping
`TypeError`: each either succeeds or raises `TypeError` — extractNumber
when the stored entry is not a dict, extractDate and extractCustomDate when
the date payload is neither null nor a string; missing keys and null
payloads still collapse to the null result. -/
theorem C3_amended :
    (∀ (fields : Val) (gid : String), ∃ r, parse_enum_custom_field fields gid = Except.ok r) ∧
    (∀ (entries : List (String × Val)) (key : String),
      ∃ b, parse_bool_field (.vobj entries) key = Except.ok b) ∧
    (∀ (fields : Val) (gid : String), (∃ r, parse_number_field fields gid = Except.ok r) ∨
      parse_number_field fields gid = Except.error PyErr.typeError) ∧
    (∀ (fields : Val) (key : String), (∃ r, parse_date_field fields key = Except.ok r) ∨
      parse_date_field fields key = Except.error PyErr.typeError) ∧
    (∀ (fields : Val) (gid : String),
      (∃ r, parse_date_custom_field fields gid = Except.ok r) ∨
      parse_date_custom_field fields gid = Except.error PyErr.typeError) := by
  refine ⟨?_, ?_, ?_, ?_, ?_⟩
  · intro fields gid
    unfold parse_enum_custom_field
    rcases getItem_cases fields gid with ⟨f, hf⟩ | hf | hf
    · rw [except_bind_ok hf]
      rcases getItem_cases f "enum_value" with ⟨ev, hev⟩ | hev | hev
      · rw [except_bind_ok hev]
        rcases getItem_cases ev "name" with ⟨x, hx⟩ | hx | hx <;> rw [hx]
        · exact ⟨some x, rfl⟩
        · exact ⟨none, rfl⟩
        · exact ⟨none, rfl⟩
      · rw [except_bind_error hev]
        exact ⟨none, rfl⟩
      · rw [except_bind_error hev]
        exact ⟨none, rfl⟩
    · rw [except_bind_error hf]
      exact ⟨none, rfl⟩
    · rw [except_bind_error hf]
      exact ⟨none, rfl⟩
  · intro entries key
    cases h : entries.lookup key with
    | some x => exact ⟨truthy x, by simp [parse_bool_field, getItem, h]⟩
    | none => exact ⟨false, by simp [parse_bool_field, getItem, h]⟩
  · intro fields gid
    unfold parse_number_field
    rcases getItem_cases fields gid with ⟨f, hf⟩ | hf | hf
    · rw [except_bind_ok hf]
      rcases getItem_cases f "number_value" with ⟨x, hx⟩ | hx | hx <;> rw [hx]
      · exact Or.inl ⟨some x, rfl⟩
      · exact Or.inr rfl
      · exact Or.inl ⟨none, rfl⟩
    · rw [except_bind_error hf]
      exact Or.inr rfl
    · rw [except_bind_error hf]
      exact Or.inl ⟨none, rfl⟩
  · intro fields key
    unfold parse_date_field
    rcases getItem_cases fields key with ⟨f, hf⟩ | hf | hf
    · simp only [hf]
      rcases parse_date_cases f with ⟨r, hr⟩ | hr
      · exact Or.inl ⟨r, hr⟩
      · exact Or.inr hr
    · simp [hf]
    · simp only [hf]
      exact Or.inl ⟨none, rfl⟩
  · intro fields gid
    unfold parse_date_custom_field
    rcases getItem_cases fields gid with ⟨f, hf⟩ | hf | hf
    · rw [except_bind_ok hf]
      rcases getItem_cases f "date_value" with ⟨dv, hdv⟩ | hdv | hdv
      · rw [except_bind_ok hdv]
        rcases getItem_cases dv "date" with ⟨x, hx⟩ | hx | hx <;> simp only [hx]
        · rcases parse_date_cases x with ⟨r, hr⟩ | hr
          · exact Or.inl ⟨r, hr⟩
          · exact Or.inr hr
        · exact Or.inl ⟨none, rfl⟩
        · exact Or.inl ⟨none, rfl⟩
      · rw [except_bind_error hdv]
        exact Or.inl ⟨none, rfl⟩
      · rw [except_bind_error hdv]
        exact Or.inl ⟨none, rfl⟩
    · rw [except_bind_error hf]
      exact Or.inl ⟨none, rfl⟩
    · rw [except_bind_error hf]
      exact Or.inl ⟨none, rfl⟩

/-- C9: `parse_bool_field` applies Python's generic truthiness coercion
`bool(...)` to whatever value the record stores under the field name rather
than parsing a boolean encoding: a present field yields the truthiness of
its value (so the non-empty string "false" yields true, while 0, the empty
string, and null yield false), and an absent field yields false. -/
theorem C9_truthiness :
    (∀ (entries : List (String × Val)) (key : String) (v : Val),
      entries.lookup key = some v →
        parse_bool_field (.vobj entries) key = Except.ok (truthy v)) ∧
    (∀ (entries : List (String × Val)) (key : String),
      entries.lookup key = none → parse_bool_field (.vobj entries) key = Except.ok false) ∧
    truthy (.vstr "false") = true ∧ truthy (.vnum 0) = false ∧
    truthy (.vstr "") = false ∧ truthy .vnull = false := by
  refine ⟨?_, ?_, by decide, by norm_num [truthy], by decide, rfl⟩
  · intro entries key v h
    simp [parse_bool_field, getItem, h]
  · intro entries key h
    simp [parse_bool_field, getItem, h]

/-- Witness for `C9_truthiness`: a record storing the string "false" under
"completed" extracts as true, and an empty record extracts as false. -/
theorem C9_truthiness_witness :
    parse_bool_field (.vobj [("completed", .vstr "false")]) "completed" = Except.ok true ∧
    parse_bool_field (.vobj []) "completed" = Except.ok false := by
  constructor
  · exact C9_truthiness.1 [("completed", .vstr "false")] "completed" (.vstr "false") rfl
  · exact C9_truthiness.2.1 [] "completed" rfl

/-! ## Claims about the pipelines -/

/-- C7: per task in the urgency pipeline, a set completion flag or a size
label equal to the literal "Holder" yields no directive; every other task
yields exactly one directive setting the urgency custom field to the score
computed from its due date, open date and impact — the attempted directives
are exactly the filter-and-map of the task list, so at most one directive
is produced per task. -/
theorem C7_urgency_directives (g : String) (today : Date) (fails : String → Bool)
    (ts : List UTask) :
    (assign_urgency g today fails ts).1 =
      (ts.filter (fun t => !t.completed && !(decide (t.size = some "Holder")))).map
        (fun t => ⟨t.gid, g, compute_urgency t.due_on t.open_date t.impact today⟩) ∧
    (assign_urgency g today fails ts).1.length ≤ ts.length := by
  have h : (assign_urgency g today fails ts).1 =
      (ts.filter (fun t => !t.completed && !(decide (t.size = some "Holder")))).map
        (fun t => ⟨t.gid, g, compute_urgency t.due_on t.open_date t.impact today⟩) := by
    induction ts with
    | nil => rfl
    | cons t ts ih =>
      by_cases h1 : t.completed <;> by_cases h2 : t.size = some "Holder" <;>
        simp [assign_urgency, h1, h2, ih]
  refine ⟨h, ?_⟩
  rw [h, List.length_map]
  exact List.length_filter_le _ _

theorem orderLoop_stopAtFail (go : String) (fails : String → Bool) (l : List OTask)
    (ord : ℚ) :
    orderLoop go fails ord l = stopAtFail fails (orderLoop go (fun _ => false) ord l) := by
  induction l generalizing ord with
  | nil => rfl
  | cons t ts ih =>
    cases h : t.order with
    | some x =>
      by_cases hf : fails t.gid <;> simp [orderLoop, h, hf, stopAtFail, ih (ord + 10)]
    | none => simpa [orderLoop, h] using ih (ord + 10)

/-- C5: the failure-policy asymmetry.  In the urgency pipeline a write
failure is non-fatal per item — the attempted directives are the same
whatever the set of failing tasks, so the task after a failure is still
attempted.  In the ordering pipeline a write failure is fatal to the rest
of the run — the attempts are the no-failure attempts truncated right after
the first failing write, for every position of the failing task. -/
theorem C5_failure_policy (gu go : String) (today : Date) :
    (∀ (fails : String → Bool) (ts : List UTask),
      (assign_urgency gu today fails ts).1 =
        (assign_urgency gu today (fun _ => false) ts).1) ∧
    (∀ (fails : String → Bool) (ts : List OTask),
      orderPipeline go fails ts =
        stopAtFail fails (orderPipeline go (fun _ => false) ts)) := by
  constructor
  · intro fails ts
    induction ts with
    | nil => rfl
    | cons t ts ih =>
      by_cases h1 : t.completed <;> by_cases h2 : t.size = some "Holder" <;>
        simp [assign_urgency, h1, h2, ih]
  · intro fails ts
    exact orderLoop_stopAtFail go fails (didSort ts) 0

/-- C6: on the items [(A, null), (B, 5), (C, null), (D, 1)] the ordering
pipeline sorts to [D, B, A, C] — keeping A before C (stability among
equal null keys) — and emits exactly the directives D → 10 and B → 20,
none for A or C. -/
theorem C6_order_example :
    didSort [⟨"A", "A", none⟩, ⟨"B", "B", some 5⟩, ⟨"C", "C", none⟩, ⟨"D", "D", some 1⟩] =
      [⟨"D", "D", some 1⟩, ⟨"B", "B", some 5⟩, ⟨"A", "A", none⟩, ⟨"C", "C", none⟩] ∧
    orderPipeline "ofield" (fun _ => false)
        [⟨"A", "A", none⟩, ⟨"B", "B", some 5⟩, ⟨"C", "C", none⟩, ⟨"D", "D", some 1⟩] =
      [⟨"D", "ofield", 10⟩, ⟨"B", "ofield", 20⟩] := by
  have hsort : didSort
      [⟨"A", "A", none⟩, ⟨"B", "B", some 5⟩, ⟨"C", "C", none⟩, ⟨"D", "D", some 1⟩] =
      ([⟨"D", "D", some 1⟩, ⟨"B", "B", some 5⟩, ⟨"A", "A", none⟩, ⟨"C", "C", none⟩] :
        List OTask) := by
    simp [didSort, List.mergeSort, orderLE]
  refine ⟨hsort, ?_⟩
  rw [orderPipeline, hsort]
  simp [orderLoop]
  norm_num

theorem orderLE_trans : ∀ a b c : OTask, orderLE a b → orderLE b c → orderLE a c := by
  intro a b c hab hbc
  cases ha : a.order <;> cases hb : b.order <;> cases hc : c.order <;> simp_all [orderLE]
  exact le_trans hab hbc

theorem orderLE_total : ∀ a b : OTask, orderLE a b || orderLE b a := by
  intro a b
  cases ha : a.order <;> cases hb : b.order <;> simp_all [orderLE]
  exact le_total _ _

theorem sorted_split (L : List OTask)
    (h : L.Pairwise (fun a b => orderLE a b = true)) :
    ∃ l1 l2, L = l1 ++ l2 ∧ (∀ t ∈ l1, t.order.isSome = true) ∧ ∀ t ∈ l2, t.order = none := by
  induction L with
  | nil => exact ⟨[], [], rfl, by simp, by simp⟩
  | cons a L ih =>
    obtain ⟨ha2, hT⟩ := List.pairwise_cons.mp h
    cases hao : a.order with
    | some x =>
      obtain ⟨l1, l2, hL, h1, h2⟩ := ih hT
      refine ⟨a :: l1, l2, by simp [hL], ?_, h2⟩
      intro t ht
      rcases List.mem_cons.mp ht with rfl | ht2
      · simp [hao]
      · exact h1 t ht2
    | none =>
      refine ⟨[], a :: L, rfl, by simp, ?_⟩
      intro t ht
      rcases List.mem_cons.mp ht with rfl | ht2
      · exact hao
      · have hle := ha2 t ht2
        cases hto : t.order with
        | none => rfl
        | some y => simp [orderLE, hao, hto] at hle

theorem orderLoop_noFail_append (go : String) (l1 l2 : List OTask) (ord : ℚ) :
    orderLoop go (fun _ => false) ord (l1 ++ l2) =
      orderLoop go (fun _ => false) ord l1 ++
        orderLoop go (fun _ => false) (ord + 10 * l1.length) l2 := by
  induction l1 generalizing ord with
  | nil => simp [orderLoop]
  | cons t ts ih =>
    have harg : ord + 10 + 10 * (ts.length : ℚ) = ord + 10 * ((t :: ts).length : ℚ) := by
      rw [List.length_cons]
      push_cast
      ring
    cases h : t.order with
    | some x =>
      simp only [List.cons_append, orderLoop, h, List.append_eq, ih (ord + 10), harg,
        Bool.false_eq_true, if_false]
    | none =>
      simp only [List.cons_append, orderLoop, h, List.append_eq, ih (ord + 10), harg]

theorem orderLoop_noFail_allNull (go : String) (l : List OTask) (ord : ℚ)
    (h : ∀ t ∈ l, t.order = none) : orderLoop go (fun _ => false) ord l = [] := by
  induction l generalizing ord with
  | nil => rfl
  | cons t ts ih =>
    have ht : t.order = none := h t (List.mem_cons_self t ts)
    simp only [orderLoop, ht]
    exact ih (ord + 10) (fun x hx => h x (List.mem_cons_of_mem t hx))

theorem orderLoop_noFail_values (go : String) (l : List OTask) (ord : ℚ)
    (h : ∀ t ∈ l, t.order.isSome = true) :
    (orderLoop go (fun _ => false) ord l).map (fun d => d.value) =
      (List.range l.length).map (fun i : ℕ => ord + 10 * ((i : ℚ) + 1)) := by
  induction l generalizing ord with
  | nil => rfl
  | cons t ts ih =>
    obtain ⟨x, hx⟩ := Option.isSome_iff_exists.mp (h t (List.mem_cons_self t ts))
    have ih2 := ih (ord + 10) (fun y hy => h y (List.mem_cons_of_mem t hy))
    rw [List.length_cons, List.range_succ_eq_map]
    simp [orderLoop, hx, ih2, List.map_map]
    intro a ha
    ring

theorem orderLoop_noFail_gids (go : String) (l : List OTask) (ord : ℚ)
    (h : ∀ t ∈ l, t.order.isSome = true) :
    (orderLoop go (fun _ => false) ord l).map (fun d => d.taskGid) =
      l.map (fun t => t.gid) := by
  induction l generalizing ord with
  | nil => rfl
  | cons t ts ih =>
    obtain ⟨x, hx⟩ := Option.isSome_iff_exists.mp (h t (List.mem_cons_self t ts))
    simp [orderLoop, hx, ih (ord + 10) (fun y hy => h y (List.mem_cons_of_mem t hy))]

theorem pairwise_filterMap_order (L : List OTask)
    (h : L.Pairwise (fun a b => orderLE a b = true)) :
    (L.filterMap (fun t => t.order)).Pairwise (fun x y => x ≤ y) := by
  induction L with
  | nil => simp
  | cons a L ih =>
    obtain ⟨ha2, hT⟩ := List.pairwise_cons.mp h
    cases hao : a.order with
    | none => simpa [List.filterMap_cons, hao] using ih hT
    | some x =>
      simp only [List.filterMap_cons, hao]
      rw [List.pairwise_cons]
      refine ⟨?_, ih hT⟩
      intro y hy
      obtain ⟨b, hb, hby⟩ := List.mem_filterMap.mp hy
      have hle := ha2 b hb
      simp [orderLE, hao, hby] at hle
      exact hle

/-- C10: with no write failures, the ordering pipeline assigns to the n
items having non-null order keys exactly the consecutive values
10, 20, …, 10·n — null-key items all sort after the keyed ones, so
skipping them introduces no gap into the written values — and the
directives run in the key-ascending order of the stable sort. -/
theorem C10_gapless (go : String) (ts : List OTask) :
    (orderPipeline go (fun _ => false) ts).map (fun d => d.value) =
      (List.range (ts.countP (fun t => t.order.isSome))).map
        (fun i : ℕ => 10 * ((i : ℚ) + 1)) ∧
    (orderPipeline go (fun _ => false) ts).map (fun d => d.taskGid) =
      ((didSort ts).filter (fun t => t.order.isSome)).map (fun t => t.gid) ∧
    ((didSort ts).filterMap (fun t => t.order)).Pairwise (fun x y => x ≤ y) := by
  have hsorted : (didSort ts).Pairwise (fun a b => orderLE a b = true) :=
    List.sorted_mergeSort orderLE_trans orderLE_total ts
  obtain ⟨l1, l2, hL, h1, h2⟩ := sorted_split (didSort ts) hsorted
  have hperm : List.Perm (didSort ts) ts := List.mergeSort_perm ts orderLE
  have hcount : ts.countP (fun t => t.order.isSome) = l1.length := by
    have hc1 : l1.countP (fun t => t.order.isSome) = l1.length :=
      List.countP_eq_length.mpr h1
    have hc2 : l2.countP (fun t => t.order.isSome) = 0 :=
      List.countP_eq_zero.mpr (fun t ht => by simp [h2 t ht])
    calc ts.countP (fun t => t.order.isSome)
        = (didSort ts).countP (fun t => t.order.isSome) := (hperm.countP_eq _).symm
      _ = l1.countP (fun t => t.order.isSome) + l2.countP (fun t => t.order.isSome) := by
          rw [hL, List.countP_append]
      _ = l1.length := by rw [hc1, hc2, Nat.add_zero]
  have hpipe : orderPipeline go (fun _ => false) ts =
      orderLoop go (fun _ => false) 0 l1 := by
    rw [orderPipeline, hL, orderLoop_noFail_append,
      orderLoop_noFail_allNull go l2 _ h2, List.append_nil]
  have hfilter : (didSort ts).filter (fun t => t.order.isSome) = l1 := by
    rw [hL, List.filter_append, List.filter_eq_self.mpr h1,
      List.filter_eq_nil_iff.mpr (fun t ht => by simp [h2 t ht]), List.append_nil]
  refine ⟨?_, ?_, ?_⟩
  · rw [hpipe, hcount, orderLoop_noFail_values go l1 0 h1]
    apply List.map_congr_left
    intro i hi
    ring
  · rw [hpipe, hfilter, orderLoop_noFail_gids go l1 0 h1]
  · exact pairwise_filterMap_order _ hsorted

end AsanaTodo
